import Mathlib

set_option maxRecDepth 8000

namespace FTL

/-- HTTP methods, as in the webserver's method enumeration used by `api_list`
(`HTTP_GET`, `HTTP_POST`, `HTTP_PUT`, `HTTP_DELETE`, plus further verbs such as
`PATCH`/`OPTIONS` that `api_list` does not dispatch on). -/
inductive HTTPMethod where
  | HTTP_GET
  | HTTP_POST
  | HTTP_PUT
  | HTTP_PATCH
  | HTTP_DELETE
  | HTTP_OPTIONS
deriving DecidableEq

/-- The closed set of list variants, `enum gravity_list_type` as used in
`src/api/list.c`. -/
inductive GravityListType where
  | GRAVITY_GROUPS
  | GRAVITY_ADLISTS
  | GRAVITY_CLIENTS
  | GRAVITY_DOMAINLIST_ALLOW_EXACT
  | GRAVITY_DOMAINLIST_ALLOW_REGEX
  | GRAVITY_DOMAINLIST_ALLOW_ALL
  | GRAVITY_DOMAINLIST_DENY_EXACT
  | GRAVITY_DOMAINLIST_DENY_REGEX
  | GRAVITY_DOMAINLIST_DENY_ALL
  | GRAVITY_DOMAINLIST_ALL_EXACT
  | GRAVITY_DOMAINLIST_ALL_REGEX
  | GRAVITY_DOMAINLIST_ALL_ALL
deriving DecidableEq

/-- Consume `path` from the front of `uri`, character by character; return the
remainder on a full match.  Auxiliary to `startsWith`. -/
def matchRoute : List Char → List Char → Option (List Char)
  | [], s => some s
  | _ :: _, [] => none
  | c :: p, d :: s => if c = d then matchRoute p s else none

/-- Modelled from the spec: the route helper `startsWith` (declared in the HTTP
layer of the repository, not under `src/`).  Per the spec (section 4.1), path
resolution matches a route path against the request URI; "the remainder of the
path after the matched prefix, if any, is the single-item argument; an empty
remainder means operate on the whole collection".  An exact match yields the
empty argument; a match of `path` followed by `/` yields the text after the
slash; anything else is not a match (`NULL` in C, `none` here).  URIs are
modelled as their character lists. -/
def startsWith (path uri : List Char) : Option (List Char) :=
  if uri = path then some []
  else matchRoute (path ++ ['/']) uri

def apiGroupsPath : List Char := "/api/groups".toList
def apiAdlistsPath : List Char := "/api/adlists".toList
def apiClientsPath : List Char := "/api/clients".toList
def apiDomainsAllowPath : List Char := "/api/domains/allow".toList
def apiDomainsAllowExactPath : List Char := "/api/domains/allow/exact".toList
def apiDomainsAllowRegexPath : List Char := "/api/domains/allow/regex".toList
def apiDomainsDenyPath : List Char := "/api/domains/deny".toList
def apiDomainsDenyExactPath : List Char := "/api/domains/deny/exact".toList
def apiDomainsDenyRegexPath : List Char := "/api/domains/deny/regex".toList
def apiDomainsExactPath : List Char := "/api/domains/exact".toList
def apiDomainsRegexPath : List Char := "/api/domains/regex".toList
def apiDomainsPath : List Char := "/api/domains".toList

/-- The routing table of section 6 of the spec: the twelve route path
prefixes. -/
def routeTable : List (List Char) :=
  [apiGroupsPath, apiAdlistsPath, apiClientsPath,
   apiDomainsAllowExactPath, apiDomainsAllowRegexPath, apiDomainsAllowPath,
   apiDomainsDenyExactPath, apiDomainsDenyRegexPath, apiDomainsDenyPath,
   apiDomainsExactPath, apiDomainsRegexPath, apiDomainsPath]

/-- The route-resolution block of `api_list` (src/api/list.c lines 276-335),
translated branch by branch.  Returns `(listtype, can_modify, argument)`.
Note two faithful quirks of the source: (1) every URI resolves to some
listtype — the final `else` assigns `GRAVITY_DOMAINLIST_ALL_ALL` even when
nothing matched; (2) in the `allow`/`deny` fallback branches the `argument`
variable has been overwritten by the failed inner `startsWith` calls, so it is
`NULL` (`none`) there. -/
def resolveRoute (uri : List Char) : GravityListType × Bool × Option (List Char) :=
  match startsWith apiGroupsPath uri with
  | some a => (.GRAVITY_GROUPS, true, some a)
  | none =>
  match startsWith apiAdlistsPath uri with
  | some a => (.GRAVITY_ADLISTS, true, some a)
  | none =>
  match startsWith apiClientsPath uri with
  | some a => (.GRAVITY_CLIENTS, true, some a)
  | none =>
  match startsWith apiDomainsAllowPath uri with
  | some _ =>
    (match startsWith apiDomainsAllowExactPath uri with
     | some a => (.GRAVITY_DOMAINLIST_ALLOW_EXACT, true, some a)
     | none =>
       match startsWith apiDomainsAllowRegexPath uri with
       | some a => (.GRAVITY_DOMAINLIST_ALLOW_REGEX, true, some a)
       | none => (.GRAVITY_DOMAINLIST_ALLOW_ALL, false, none))
  | none =>
  match startsWith apiDomainsDenyPath uri with
  | some _ =>
    (match startsWith apiDomainsDenyExactPath uri with
     | some a => (.GRAVITY_DOMAINLIST_DENY_EXACT, true, some a)
     | none =>
       match startsWith apiDomainsDenyRegexPath uri with
       | some a => (.GRAVITY_DOMAINLIST_DENY_REGEX, true, some a)
       | none => (.GRAVITY_DOMAINLIST_DENY_ALL, false, none))
  | none =>
  match startsWith apiDomainsExactPath uri with
  | some a => (.GRAVITY_DOMAINLIST_ALL_EXACT, false, some a)
  | none =>
  match startsWith apiDomainsRegexPath uri with
  | some a => (.GRAVITY_DOMAINLIST_ALL_REGEX, false, some a)
  | none => (.GRAVITY_DOMAINLIST_ALL_ALL, false, startsWith apiDomainsPath uri)

/-- JSON values, the shape of the cJSON trees this layer builds and reads.
Numbers are modelled as integers (all numbers this layer handles — ids, group
ids, timestamps — are integral). -/
inductive JValue where
  | null
  | bool (b : Bool)
  | num (n : Int)
  | str (s : String)
  | arr (items : List JValue)
  | obj (fields : List (String × JValue))

/-- An HTTP response produced by this layer: a status code and a JSON body. -/
structure Response where
  status : Nat
  body : JValue

/-- Modelled from the spec: `send_json_error` (HTTP layer, not under `src/`).
Section 6: the error body is the given data "attached to a generic error
envelope (`code`, `key`, `message`, `data`) supplied by the surrounding
collaborator"; a `NULL` data pointer becomes a null `data` field. -/
def send_json_error (code : Nat) (key message : String) (data : Option JValue) :
    Response :=
  { status := code,
    body := JValue.obj
      [("code", JValue.num code), ("key", JValue.str key),
       ("message", JValue.str message), ("data", data.getD JValue.null)] }

/-- A C string that may be `NULL`, rendered into JSON: the string itself or
JSON null.  Matches the `if (x != NULL) REF_STR else ADD_NULL` pattern of the
source. -/
def nullableStr : Option String → JValue
  | some s => JValue.str s
  | none => JValue.null

/-- The `argument` (a C string that may be `NULL`), rendered into JSON. -/
def nullableChars : Option (List Char) → JValue
  | some a => JValue.str (String.mk a)
  | none => JValue.null

/-- The `{argument, sql_msg}` diagnostic object built by the reader (lines
25-35 and 122-132), the remover (lines 249-257), and — with more fields — the
writer: argument may be `NULL`, and sql_msg may be `NULL`. -/
def errData (argument : Option (List Char)) (sql_msg : Option String) : JValue :=
  JValue.obj [("argument", nullableChars argument), ("sql_msg", nullableStr sql_msg)]

/-- The `tablerow` struct as read back from the store, restricted to the
fields `api_list_read` serializes.  `group_ids` is the store's comma-joined
aggregate (a C string, possibly `NULL`), kept as its character list. -/
structure Tablerow where
  id : Int
  name : String
  description : Option String
  address : String
  comment : Option String
  domain : String
  type : String
  group_ids : Option (List Char)
  enabled : Bool
  date_added : Int
  date_modified : Int

/-- Leading digits of a character list, and the rest.  Auxiliary to the
integer-array JSON parse. -/
def takeDigits : List Char → List Char × List Char
  | [] => ([], [])
  | c :: cs =>
    if c.isDigit then
      let p := takeDigits cs
      (c :: p.1, p.2)
    else ([], c :: cs)

/-- Numeric value of a digit string (most significant digit first). -/
def digitsToNat (ds : List Char) : Nat :=
  ds.foldl (fun acc c => 10 * acc + (c.toNat - 48)) 0

/-- Elements of a JSON integer array after the opening `[`: one or more
digit runs separated by single commas, terminated by `]` at the end of input.
Anything else — an empty element, a stray character, a trailing comma —
fails, as in cJSON.  `fuel` bounds the recursion (one unit per element). -/
def parseItems : Nat → List Char → Option (List Nat)
  | 0, _ => none
  | Nat.succ fuel, cs =>
    match takeDigits cs with
    | ([], _) => none
    | (ds, rest) =>
      match rest with
      | [']'] => some [digitsToNat ds]
      | ',' :: more =>
        match parseItems fuel more with
        | some ns => some (digitsToNat ds :: ns)
        | none => none
      | _ => none

/-- The external JSON library's `cJSON_Parse`, restricted to the only inputs
this layer feeds it (line 88 of the source): a bracketed list of unsigned
integers with no whitespace.  Returns the parsed integer list, or `none` for
a malformed input (cJSON returns `NULL`). -/
def cJSON_Parse_intarray (cs : List Char) : Option (List Nat) :=
  match cs with
  | '[' :: rest => if rest = [']'] then some [] else parseItems rest.length rest
  | _ => none

/-- The `groups` field of a domain-list item (lines 78-94): wrap the raw
`group_ids` text in `[`/`]` and parse it with the JSON library; a `NULL`
aggregate yields an empty array.  A failed parse yields cJSON `NULL`, and
`cJSON_AddItemToObject` with a `NULL` item adds nothing — the key is then
omitted, which is modelled by the empty field list. -/
def groupsItem (group_ids : Option (List Char)) : List (String × JValue) :=
  match group_ids with
  | some s =>
    match cJSON_Parse_intarray ('[' :: (s ++ [']'])) with
    | some ns => [("groups", JValue.arr (ns.map (fun n => JValue.num n)))]
    | none => []
  | none => [("groups", JValue.arr [])]

/-- The Row Codec: one iteration of the row loop of `api_list_read`
(lines 45-102), building the JSON item for one `tablerow`.  `GRAVITY_GROUPS`
and `GRAVITY_ADLISTS` have their own shapes; every other variant — all the
domain-list variants and also `GRAVITY_CLIENTS` — takes the `else` branch
("domainlists"). -/
def rowToJSON (listtype : GravityListType) (row : Tablerow) : JValue :=
  let fin := [("enabled", JValue.bool row.enabled),
              ("date_added", JValue.num row.date_added),
              ("date_modified", JValue.num row.date_modified)]
  match listtype with
  | .GRAVITY_GROUPS =>
    JValue.obj ([("id", JValue.num row.id), ("name", JValue.str row.name),
                 ("description", nullableStr row.description)] ++ fin)
  | .GRAVITY_ADLISTS =>
    JValue.obj ([("id", JValue.num row.id), ("address", JValue.str row.address),
                 ("comment", nullableStr row.comment)] ++ fin)
  | _ =>
    JValue.obj ([("id", JValue.num row.id), ("domain", JValue.str row.domain),
                 ("type", JValue.str row.type),
                 ("comment", nullableStr row.comment)]
                ++ groupsItem row.group_ids ++ fin)

/-- The collection key chosen by `api_list_read` (lines 108-115):
`groups` / `adlists` for those variants, `domains` for everything else
(all domain lists and also `GRAVITY_CLIENTS`). -/
def tableObjName (listtype : GravityListType) : String :=
  match listtype with
  | .GRAVITY_GROUPS => "groups"
  | .GRAVITY_ADLISTS => "adlists"
  | _ => "domains"

/-- The keys of a JSON object (empty for non-objects). -/
def jsonKeys : JValue → List String
  | JValue.obj fields => fields.map Prod.fst
  | _ => []

/-- The store operations this layer invokes on the collaborator, recorded as
an event trace so that claims about which store calls happen (and in what
order) can be stated. -/
inductive StoreOp where
  | readTable
  | readTableGetRow
  | readTableFinalize
  | addToTable
  | edit_groups
  | delFromTable
deriving DecidableEq

/-- The collaborator's behaviour for one read: whether `gravityDB_readTable`
succeeds (and the `sql_msg` it leaves on failure), the rows the cursor
yields, and the `sql_msg` state after the final `gravityDB_readTableGetRow`
(`none` = clean end of iteration, `some` = mid-stream error surfaced at
end-of-iteration). -/
structure ReadCursor where
  openOk : Bool
  openMsg : Option String
  rows : List Tablerow
  drainMsg : Option String

/-- `api_list_read` (src/api/list.c lines 17-139), translated: open the
cursor (early error return on failure, without finalize), drain it into an
items array via the Row Codec, finalize, then either send the collection
under its variant key with the given status code, or — when the drain left a
`sql_msg` — discard the items and send a database error.  The second
component is the trace of store operations invoked. -/
def api_list_read (code : Nat) (listtype : GravityListType)
    (argument : Option (List Char)) (cur : ReadCursor) :
    Response × List StoreOp :=
  if !cur.openOk then
    (send_json_error 400 "database_error"
      "Could not read domains from database table"
      (some (errData argument cur.openMsg)),
     [StoreOp.readTable])
  else
    let items := cur.rows.map (rowToJSON listtype)
    let trace := StoreOp.readTable ::
      (List.replicate (cur.rows.length + 1) StoreOp.readTableGetRow
        ++ [StoreOp.readTableFinalize])
    match cur.drainMsg with
    | none =>
      ({ status := code,
         body := JValue.obj [(tableObjName listtype, JValue.arr items)] },
       trace)
    | some m =>
      (send_json_error 400 "database_error"
        "Could not read from gravity database"
        (some (errData argument (some m))),
       trace)

/-- `cJSON_GetObjectItemCaseSensitive` on a (possibly `NULL`) cJSON value:
first field with the given key, when the value is an object. -/
def getObjectItem : Option JValue → String → Option JValue
  | some (JValue.obj fields), key => lookupField fields key
  | _, _ => none
where
  lookupField : List (String × JValue) → String → Option JValue
    | [], _ => none
    | (k, v) :: rest, key => if k = key then some v else lookupField rest key

/-- `cJSON_IsBool` on a possibly-`NULL` item. -/
def cJSON_IsBool : Option JValue → Bool
  | some (JValue.bool _) => true
  | _ => false

/-- `cJSON_IsTrue` on a possibly-`NULL` item. -/
def cJSON_IsTrue : Option JValue → Bool
  | some (JValue.bool b) => b
  | _ => false

/-- The optional-string decoding of the writer (lines 168-184): a string
field that is present and non-empty is used; present-but-empty or absent (or
non-string) becomes `NULL`. -/
def optStringField (payload : JValue) (key : String) : Option String :=
  match getObjectItem (some payload) key with
  | some (JValue.str s) => if s.length > 0 then some s else none
  | _ => none

/-- The row the writer assembles before calling the store (lines 146-184):
`row = {0}` then argument/enabled/comment/description/oldtype are filled in;
`name` is never assigned on this path and stays `NULL`. -/
structure WriteRow where
  argument : Option (List Char)
  enabled : Bool
  comment : Option String
  description : Option String
  oldtype : Option String
  name : Option String

/-- The row the writer fills in from the payload (lines 146-184): argument,
the decoded `enabled` flag, and the three optional string fields; `name` is
never assigned on this path and stays `NULL`. -/
def assembleRow (argument : Option (List Char)) (pj : JValue) : WriteRow :=
  { argument := argument,
    enabled := cJSON_IsTrue (getObjectItem (some pj) "enabled"),
    comment := optStringField pj "comment",
    description := optStringField pj "description",
    oldtype := optStringField pj "oldtype",
    name := none }

/-- The collaborator's behaviour for one write request: the outcome of
`gravityDB_addToTable` (and the `sql_msg` it leaves on failure) and of
`gravityDB_edit_groups` (likewise). -/
structure WriteOracle where
  addOk : Bool
  addMsg : Option String
  editOk : Bool
  editMsg : Option String

/-- The error body of a failed write (lines 200-219): the submitted fields —
argument, enabled, and each optional field only when non-`NULL` — plus the
nullable `sql_msg`. -/
def writeErrData (row : WriteRow) (sql_msg : Option String) : JValue :=
  JValue.obj
    ([("argument", nullableChars row.argument),
      ("enabled", JValue.bool row.enabled)]
     ++ (match row.comment with
         | some c => [("comment", JValue.str c)] | none => [])
     ++ (match row.description with
         | some d => [("description", JValue.str d)] | none => [])
     ++ (match row.name with
         | some n => [("name", JValue.str n)] | none => [])
     ++ (match row.oldtype with
         | some o => [("oldtype", JValue.str o)] | none => [])
     ++ [("sql_msg", nullableStr sql_msg)])

/-- `api_list_write` (src/api/list.c lines 141-234), translated: validate the
payload (a parsed JSON body must exist and carry a boolean `enabled`), decode
the optional string fields, call `gravityDB_addToTable`; when that succeeds
and the payload has a `groups` key, call `gravityDB_edit_groups`; on any
store failure send the database error echoing the submitted fields; on
overall success re-invoke `api_list_read` for the same variant and argument
with status 201 (or 200 for PUT). -/
def api_list_write (method : HTTPMethod) (listtype : GravityListType)
    (argument : Option (List Char)) (payload : Option JValue)
    (wo : WriteOracle) (cur : ReadCursor) : Response × List StoreOp :=
  match payload with
  | none =>
    (send_json_error 400 "bad_request" "Invalid request body data" none, [])
  | some pj =>
    if !cJSON_IsBool (getObjectItem (some pj) "enabled") then
      (send_json_error 400 "bad_request"
        "No \"enabled\" boolean in body data" none, [])
    else
      let row : WriteRow := assembleRow argument pj
      if wo.addOk then
        match getObjectItem (some pj) "groups" with
        | some _ =>
          if wo.editOk then
            let code := if method = .HTTP_PUT then 200 else 201
            let rd := api_list_read code listtype argument cur
            (rd.1, StoreOp.addToTable :: StoreOp.edit_groups :: rd.2)
          else
            (send_json_error 400 "database_error"
              "Could not add to gravity database"
              (some (writeErrData row wo.editMsg)),
             [StoreOp.addToTable, StoreOp.edit_groups])
        | none =>
          let code := if method = .HTTP_PUT then 200 else 201
          let rd := api_list_read code listtype argument cur
          (rd.1, StoreOp.addToTable :: rd.2)
      else
        (send_json_error 400 "database_error"
          "Could not add to gravity database"
          (some (writeErrData row wo.addMsg)),
         [StoreOp.addToTable])

/-- `api_list_remove` (src/api/list.c lines 236-265), translated: call
`gravityDB_delFromTable`; on success send the (empty) JSON object with 204
No Content; on failure send the database error with `{argument, sql_msg}`. -/
def api_list_remove (argument : Option (List Char))
    (delOk : Bool) (delMsg : Option String) : Response × List StoreOp :=
  if delOk then
    ({ status := 204, body := JValue.obj [] }, [StoreOp.delFromTable])
  else
    (send_json_error 400 "database_error"
      "Could not remove domain from database table"
      (some (errData argument delMsg)),
     [StoreOp.delFromTable])

/-- Modelled from the spec: `gravityDB_delFromTable` (the collaborator store,
not under `src/`).  Section 4.4: "deleting an item that does not exist is a
failure, not a no-op" — deletion succeeds exactly when a row with the given
argument exists, and then removes it.  The store is abstracted to the list of
row identities. -/
def gravityDB_delFromTable (store : List (List Char)) (argument : List Char) :
    Bool × List (List Char) :=
  if argument ∈ store then (true, store.erase argument) else (false, store)

/-- The collaborator behaviour backing one full request. -/
structure DB where
  cursor : ReadCursor
  write : WriteOracle
  delOk : Bool
  delMsg : Option String

/-- One incoming request as `api_list` sees it: method, URI, whether
`check_client_auth` accepts the caller (the auth mechanism itself is an
external collaborator), and the parsed JSON body (`none` when parsing
failed or no body was sent). -/
structure FTLConn where
  method : HTTPMethod
  uri : List Char
  authorized : Bool
  payload : Option JValue

/-- The overall result of `api_list`: either a response, or `no_route`
(`return 0` in the source) which the caller maps to a 404. -/
inductive APIResult where
  | response (r : Response)
  | no_route

/-- Modelled from the spec: the 401 reply of `send_json_unauthorized`
(HTTP layer, not under `src/`). -/
def send_json_unauthorized : Response :=
  send_json_error 401 "unauthorized" "Unauthorized" none

/-- `api_list` (src/api/list.c lines 267-364), translated: auth gate first,
then route resolution, then method dispatch — GET to the reader; POST/PUT to
the writer and DELETE to the remover only when `can_modify`; otherwise 400
`bad_request` when the variant is not modifiable, and `no_route` (mapped to
404 by the caller) for anything else. -/
def api_list (conn : FTLConn) (db : DB) : APIResult × List StoreOp :=
  if !conn.authorized then
    (.response send_json_unauthorized, [])
  else
    let res := resolveRoute conn.uri
    let listtype := res.1
    let can_modify := res.2.1
    let argument := res.2.2
    if conn.method = .HTTP_GET then
      let rd := api_list_read 200 listtype argument db.cursor
      (.response rd.1, rd.2)
    else if can_modify ∧ (conn.method = .HTTP_POST ∨ conn.method = .HTTP_PUT) then
      let wr := api_list_write conn.method listtype argument conn.payload
                  db.write db.cursor
      (.response wr.1, wr.2)
    else if can_modify ∧ conn.method = .HTTP_DELETE then
      let rm := api_list_remove argument db.delOk db.delMsg
      (.response rm.1, rm.2)
    else if !can_modify then
      (.response (send_json_error 400 "bad_request"
        "Invalid request: Specify list to modify" none), [])
    else
      (.no_route, [])

/-- Comma-joined concatenation, the form of the store's `group_concat`
aggregate: the groups joined by single commas. -/
def joinComma : List (List Char) → List Char
  | [] => []
  | [g] => g
  | g :: gs => g ++ ',' :: joinComma gs

/-- A well-formed aggregate element: a non-empty run of digits. -/
def GoodGroup (g : List Char) : Prop := g ≠ [] ∧ ∀ c ∈ g, c.isDigit

instance (g : List Char) : Decidable (GoodGroup g) :=
  inferInstanceAs (Decidable (g ≠ [] ∧ ∀ c ∈ g, c.isDigit))

/-- The store-side invariant on `group_ids` (spec section 3): when non-null
it is a sequence of non-negative integers separated by commas with no other
characters. -/
def GroupIdsOk (gi : Option (List Char)) : Prop :=
  gi = none ∨ ∃ gs, gs ≠ [] ∧ (∀ g ∈ gs, GoodGroup g) ∧ gi = some (joinComma gs)

/-- A concrete domain-list row used to instantiate claims on concrete
inputs. -/
def row0 : Tablerow :=
  { id := 1, name := "", description := none, address := "", comment := none,
    domain := "blocked.example", type := "deny", group_ids := none,
    enabled := true, date_added := 100, date_modified := 200 }

/-- A concrete collaborator behaviour: the cursor opens, yields `row0`, and
drains cleanly; writes and deletes succeed. -/
def db0 : DB :=
  { cursor := { openOk := true, openMsg := none, rows := [row0], drainMsg := none },
    write := { addOk := true, addMsg := none, editOk := true, editMsg := none },
    delOk := true, delMsg := none }

theorem matchRoute_eq_some {p s r : List Char} (h : matchRoute p s = some r) :
    s = p ++ r := by
  induction p generalizing s with
  | nil =>
    simp [matchRoute] at h
    simp [h]
  | cons c p ih =>
    cases s with
    | nil => simp [matchRoute] at h
    | cons d s =>
      by_cases hc : c = d
      · subst hc
        simp [matchRoute] at h
        simp [ih h]
      · simp [matchRoute, hc] at h

theorem startsWith_eq_some {path uri r : List Char}
    (h : startsWith path uri = some r) :
    (uri = path ∧ r = []) ∨ uri = path ++ '/' :: r := by
  unfold startsWith at h
  by_cases he : uri = path
  · simp [he] at h
    exact Or.inl ⟨he, h⟩
  · simp [he] at h
    right
    have := matchRoute_eq_some h
    simpa [List.append_assoc] using this

theorem takeDigits_append_nondigit {g : List Char} {d : Char} {rest : List Char}
    (hg : ∀ c ∈ g, c.isDigit) (hd : d.isDigit = false) :
    takeDigits (g ++ d :: rest) = (g, d :: rest) := by
  induction g with
  | nil => simp [takeDigits, hd]
  | cons c g ih =>
    have hc : c.isDigit := hg c (by simp)
    have hrec := ih (fun x hx => hg x (by simp [hx]))
    simp [takeDigits, hc, hrec]

theorem joinComma_ne_nil {g : List Char} {gs : List (List Char)} (hg : g ≠ []) :
    joinComma (g :: gs) ≠ [] := by
  cases gs with
  | nil => simpa [joinComma] using hg
  | cons g2 gs2 => simp [joinComma]

theorem joinComma_length_ge {gs : List (List Char)} (h : ∀ g ∈ gs, g ≠ []) :
    gs.length ≤ (joinComma gs).length := by
  induction gs with
  | nil => simp [joinComma]
  | cons g gs ih =>
    have hg : 1 ≤ g.length := by
      have := h g (by simp)
      cases g with
      | nil => exact absurd rfl this
      | cons c g2 => simp
    cases gs with
    | nil => simpa [joinComma] using hg
    | cons g2 gs2 =>
      have ih2 := ih (fun x hx => h x (by simp [hx]))
      simp only [joinComma, List.length_append, List.length_cons]
      simp at ih2 ⊢
      omega

theorem parseItems_joinComma :
    ∀ (gs : List (List Char)) (fuel : Nat), gs ≠ [] →
    (∀ g ∈ gs, GoodGroup g) → gs.length ≤ fuel →
    parseItems fuel (joinComma gs ++ [']']) = some (gs.map digitsToNat) := by
  intro gs
  induction gs with
  | nil => intro fuel h; exact absurd rfl h
  | cons g gs ih =>
    intro fuel _ hgood hlen
    obtain ⟨f, rfl⟩ : ∃ f, fuel = f + 1 := ⟨fuel - 1, by simp at hlen; omega⟩
    have hgd : GoodGroup g := hgood g (by simp)
    obtain ⟨c, g2, rfl⟩ : ∃ c g2, g = c :: g2 := by
      cases g with
      | nil => exact absurd rfl hgd.1
      | cons c g2 => exact ⟨c, g2, rfl⟩
    cases gs with
    | nil =>
      have ht : takeDigits ((c :: g2) ++ ']' :: []) = (c :: g2, [']']) :=
        takeDigits_append_nondigit hgd.2 (by decide)
      simp only [List.cons_append] at ht
      simp only [joinComma]
      simp [parseItems, ht]
    | cons g3 gs3 =>
      have ht : takeDigits ((c :: g2) ++ ',' :: (joinComma (g3 :: gs3) ++ [']']))
          = (c :: g2, ',' :: (joinComma (g3 :: gs3) ++ [']'])) :=
        takeDigits_append_nondigit hgd.2 (by decide)
      have hrec := ih f (by simp)
        (fun x hx => hgood x (by simp [hx])) (by simp at hlen ⊢; omega)
      simp only [joinComma, List.cons_append, List.append_assoc]
      simp only [List.cons_append] at ht
      simp [parseItems, ht, hrec]

theorem cJSON_Parse_intarray_joinComma {gs : List (List Char)} (hne : gs ≠ [])
    (hgood : ∀ g ∈ gs, GoodGroup g) :
    cJSON_Parse_intarray ('[' :: (joinComma gs ++ [']']))
      = some (gs.map digitsToNat) := by
  obtain ⟨g, gs2, rfl⟩ : ∃ g gs2, gs = g :: gs2 := by
    cases gs with
    | nil => exact absurd rfl hne
    | cons g gs2 => exact ⟨g, gs2, rfl⟩
  have hjne : joinComma (g :: gs2) ≠ [] := joinComma_ne_nil (hgood g (by simp)).1
  have hrest : ¬(joinComma (g :: gs2) ++ [']'] = [']']) := by
    intro h
    have hl := congrArg List.length h
    simp at hl
    exact hjne hl
  have hfuel : (g :: gs2).length ≤ (joinComma (g :: gs2) ++ [']']).length := by
    have := joinComma_length_ge (fun x hx => (hgood x hx).1)
    simp
    simp at this
    omega
  simp only [cJSON_Parse_intarray, if_neg hrest]
  exact parseItems_joinComma (g :: gs2) _ (by simp) hgood hfuel

theorem groups_key_mem {gi : Option (List Char)} (h : GroupIdsOk gi) :
    "groups" ∈ (groupsItem gi).map Prod.fst := by
  rcases h with rfl | ⟨gs, hne, hgood, rfl⟩
  · simp [groupsItem]
  · simp [groupsItem, cJSON_Parse_intarray_joinComma hne hgood]

/-- Claim C1 (counterexample): the claim says a request whose path matches no
route prefix resolves no variant and yields a no-route result, and in
particular a GET of such a path returns no list contents.  On the code,
`/api/unknown` — which matches none of the twelve route prefixes — falls
through to `GRAVITY_DOMAINLIST_ALL_ALL` with a `NULL` argument, and a GET
returns the full domains collection with status 200, not no-route. -/
theorem C1_counterexample :
    (∀ p ∈ routeTable, startsWith p ("/api/unknown".toList) = none)
    ∧ (api_list { method := .HTTP_GET, uri := "/api/unknown".toList,
                  authorized := true, payload := none } db0).1
      = APIResult.response
          { status := 200,
            body := JValue.obj [("domains", JValue.arr
              [JValue.obj [("id", JValue.num 1),
                           ("domain", JValue.str "blocked.example"),
                           ("type", JValue.str "deny"),
                           ("comment", JValue.null),
                           ("groups", JValue.arr []),
                           ("enabled", JValue.bool true),
                           ("date_added", JValue.num 100),
                           ("date_modified", JValue.num 200)]])] }
    ∧ (api_list { method := .HTTP_GET, uri := "/api/unknown".toList,
                  authorized := true, payload := none } db0).1
      ≠ APIResult.no_route := by
  refine ⟨by decide, rfl, ?_⟩
  intro h
  exact APIResult.noConfusion h

/-- Claim C1 (amended): a request whose path matches none of the twelve route
prefixes does not yield no-route; it falls through to
`DomainList(Any,Any)` with a `NULL` argument, so a GET returns the full
domains collection (status 200 on a clean read) and every other method gets
the 400 `bad_request` reply for non-modifiable variants. -/
theorem C1_routing_fallthrough (uri : List Char) (db : DB) (pl : Option JValue)
    (h : ∀ p ∈ routeTable, startsWith p uri = none) :
    resolveRoute uri = (.GRAVITY_DOMAINLIST_ALL_ALL, false, none)
    ∧ (api_list { method := .HTTP_GET, uri := uri,
                  authorized := true, payload := pl } db).1
      = .response (api_list_read 200 .GRAVITY_DOMAINLIST_ALL_ALL none db.cursor).1
    ∧ ∀ m, m ≠ HTTPMethod.HTTP_GET →
        (api_list { method := m, uri := uri,
                    authorized := true, payload := pl } db).1
        = .response (send_json_error 400 "bad_request"
            "Invalid request: Specify list to modify" none) := by
  have hg := h apiGroupsPath (by simp [routeTable])
  have had := h apiAdlistsPath (by simp [routeTable])
  have hcl := h apiClientsPath (by simp [routeTable])
  have hal := h apiDomainsAllowPath (by simp [routeTable])
  have hde := h apiDomainsDenyPath (by simp [routeTable])
  have hex := h apiDomainsExactPath (by simp [routeTable])
  have hre := h apiDomainsRegexPath (by simp [routeTable])
  have hdo := h apiDomainsPath (by simp [routeTable])
  have hres : resolveRoute uri = (.GRAVITY_DOMAINLIST_ALL_ALL, false, none) := by
    simp [resolveRoute, hg, had, hcl, hal, hde, hex, hre, hdo]
  refine ⟨hres, ?_, ?_⟩
  · simp [api_list, hres]
  · intro m hm
    cases m with
    | HTTP_GET => exact absurd rfl hm
    | HTTP_POST => simp [api_list, hres]
    | HTTP_PUT => simp [api_list, hres]
    | HTTP_PATCH => simp [api_list, hres]
    | HTTP_DELETE => simp [api_list, hres]
    | HTTP_OPTIONS => simp [api_list, hres]

/-- Witness for C1 (amended), at the unmatched path `/api/unknown`. -/
theorem C1_witness :
    (∀ p ∈ routeTable, startsWith p ("/api/unknown".toList) = none)
    ∧ resolveRoute ("/api/unknown".toList)
      = (.GRAVITY_DOMAINLIST_ALL_ALL, false, none) :=
  ⟨by decide,
   (C1_routing_fallthrough ("/api/unknown".toList) db0 none (by decide)).1⟩

/-- Claim C2 (counterexample): the claim says every method/variant
combination other than GET/Reader, mutable POST/PUT/Writer and mutable
DELETE/Remover — in particular an unsupported verb — yields no-route.  On
the code, PATCH on the non-mutable `/api/domains` variant yields the 400
`bad_request` reply (with no store operation), not no-route. -/
theorem C2_counterexample :
    (api_list { method := .HTTP_PATCH, uri := "/api/domains".toList,
                authorized := true, payload := none } db0)
      = (.response (send_json_error 400 "bad_request"
          "Invalid request: Specify list to modify" none), [])
    ∧ (api_list { method := .HTTP_PATCH, uri := "/api/domains".toList,
                  authorized := true, payload := none } db0).1
      ≠ APIResult.no_route := by
  refine ⟨rfl, ?_⟩
  intro h
  exact APIResult.noConfusion h

/-- Claim C2 (amended): GET always dispatches to the Reader; POST/PUT
dispatch to the Writer and DELETE to the Remover only when the variant is
mutable; on a non-mutable variant every method other than GET — the mutating
verbs and also unsupported verbs — returns the 400 `bad_request` reply with
no store operation invoked; an unsupported verb yields no-route (for the
caller to map to 404) only on a mutable variant, again with no store
operation. -/
theorem C2_dispatch (uri : List Char) (db : DB) (pl : Option JValue)
    (lt : GravityListType) (cm : Bool) (arg : Option (List Char))
    (hres : resolveRoute uri = (lt, cm, arg)) :
    (api_list { method := .HTTP_GET, uri := uri,
                authorized := true, payload := pl } db).1
      = .response (api_list_read 200 lt arg db.cursor).1
    ∧ (cm = true → ∀ m, m = HTTPMethod.HTTP_POST ∨ m = HTTPMethod.HTTP_PUT →
        (api_list { method := m, uri := uri,
                    authorized := true, payload := pl } db).1
        = .response (api_list_write m lt arg pl db.write db.cursor).1)
    ∧ (cm = true →
        (api_list { method := .HTTP_DELETE, uri := uri,
                    authorized := true, payload := pl } db).1
        = .response (api_list_remove arg db.delOk db.delMsg).1)
    ∧ (cm = false → ∀ m, m ≠ HTTPMethod.HTTP_GET →
        (api_list { method := m, uri := uri,
                    authorized := true, payload := pl } db)
        = (.response (send_json_error 400 "bad_request"
            "Invalid request: Specify list to modify" none), []))
    ∧ (cm = true → ∀ m, m ≠ HTTPMethod.HTTP_GET → m ≠ HTTPMethod.HTTP_POST →
        m ≠ HTTPMethod.HTTP_PUT → m ≠ HTTPMethod.HTTP_DELETE →
        (api_list { method := m, uri := uri,
                    authorized := true, payload := pl } db)
        = (.no_route, [])) := by
  refine ⟨?_, ?_, ?_, ?_, ?_⟩
  · simp [api_list, hres]
  · rintro hcm m (rfl | rfl) <;> simp [api_list, hres, hcm]
  · intro hcm
    simp [api_list, hres, hcm]
  · intro hcm m hm
    cases m with
    | HTTP_GET => exact absurd rfl hm
    | HTTP_POST => simp [api_list, hres, hcm]
    | HTTP_PUT => simp [api_list, hres, hcm]
    | HTTP_PATCH => simp [api_list, hres, hcm]
    | HTTP_DELETE => simp [api_list, hres, hcm]
    | HTTP_OPTIONS => simp [api_list, hres, hcm]
  · intro hcm m h1 h2 h3 h4
    cases m with
    | HTTP_GET => exact absurd rfl h1
    | HTTP_POST => exact absurd rfl h2
    | HTTP_PUT => exact absurd rfl h3
    | HTTP_DELETE => exact absurd rfl h4
    | HTTP_PATCH => simp [api_list, hres, hcm]
    | HTTP_OPTIONS => simp [api_list, hres, hcm]

/-- Witness for C2 (amended), at the mutable route `/api/groups` and the
non-mutable route `/api/domains`. -/
theorem C2_witness :
    (resolveRoute ("/api/groups".toList) = (.GRAVITY_GROUPS, true, some []))
    ∧ (api_list { method := .HTTP_DELETE, uri := "/api/groups".toList,
                  authorized := true, payload := none } db0).1
      = .response (api_list_remove (some []) db0.delOk db0.delMsg).1
    ∧ (api_list { method := .HTTP_PATCH, uri := "/api/domains".toList,
                  authorized := true, payload := none } db0)
      = (.response (send_json_error 400 "bad_request"
          "Invalid request: Specify list to modify" none), []) :=
  ⟨by decide,
   (C2_dispatch ("/api/groups".toList) db0 none
      .GRAVITY_GROUPS true (some []) (by decide)).2.2.1 rfl,
   (C2_dispatch ("/api/domains".toList) db0 none
      .GRAVITY_DOMAINLIST_ALL_ALL false (some []) (by decide)).2.2.2.1 rfl
      .HTTP_PATCH (by decide)⟩

/-- Claim C3: specificity ordering of path resolution — a request path that
matches the `/api/domains/allow/exact` route (respectively `allow/regex`,
`deny/exact`, `deny/regex`) resolves to the exact/regex-scoped variant with
the path remainder as argument, never to the broader Allow/Deny or
Any-scoped variant; in particular `/api/domains/allow/exact/x` resolves to
`DomainList(Allow,Exact)` with argument `x`. -/
theorem C3_routing :
    (∀ uri r, startsWith apiDomainsAllowExactPath uri = some r →
       resolveRoute uri = (.GRAVITY_DOMAINLIST_ALLOW_EXACT, true, some r))
    ∧ (∀ uri r, startsWith apiDomainsAllowRegexPath uri = some r →
       resolveRoute uri = (.GRAVITY_DOMAINLIST_ALLOW_REGEX, true, some r))
    ∧ (∀ uri r, startsWith apiDomainsDenyExactPath uri = some r →
       resolveRoute uri = (.GRAVITY_DOMAINLIST_DENY_EXACT, true, some r))
    ∧ (∀ uri r, startsWith apiDomainsDenyRegexPath uri = some r →
       resolveRoute uri = (.GRAVITY_DOMAINLIST_DENY_REGEX, true, some r))
    ∧ resolveRoute ("/api/domains/allow/exact/x".toList)
      = (.GRAVITY_DOMAINLIST_ALLOW_EXACT, true, some ['x']) := by
  refine ⟨?_, ?_, ?_, ?_, rfl⟩ <;>
  · intro uri r h
    rcases startsWith_eq_some h with ⟨h1, h2⟩ | h1
    · subst h1; subst h2; rfl
    · subst h1; rfl

/-- Witness for C3, at the path `/api/domains/allow/exact/x`. -/
theorem C3_witness :
    startsWith apiDomainsAllowExactPath ("/api/domains/allow/exact/x".toList)
      = some ['x']
    ∧ resolveRoute ("/api/domains/allow/exact/x".toList)
      = (.GRAVITY_DOMAINLIST_ALLOW_EXACT, true, some ['x']) :=
  ⟨by decide, C3_routing.1 ("/api/domains/allow/exact/x".toList) ['x'] (by decide)⟩

/-- Claim C4: for every domain-list row, when the store's group aggregate is
a non-null well-formed string of comma-separated digit runs, the `groups`
field is produced by wrapping the raw text in square brackets and parsing it
as JSON, yielding the corresponding integer array; when the aggregate is
null, `groups` is the empty array; under this precondition the `groups` key
is never omitted from a domain-list item. -/
theorem C4_groups_reconstruction :
    (∀ gs : List (List Char), gs ≠ [] → (∀ g ∈ gs, GoodGroup g) →
       cJSON_Parse_intarray ('[' :: (joinComma gs ++ [']']))
         = some (gs.map digitsToNat)
       ∧ groupsItem (some (joinComma gs))
         = [("groups",
             JValue.arr ((gs.map digitsToNat).map (fun n => JValue.num n)))])
    ∧ groupsItem none = [("groups", JValue.arr [])]
    ∧ (∀ (lt : GravityListType) (row : Tablerow),
        lt ≠ GravityListType.GRAVITY_GROUPS →
        lt ≠ GravityListType.GRAVITY_ADLISTS →
        GroupIdsOk row.group_ids →
        "groups" ∈ jsonKeys (rowToJSON lt row)) := by
  refine ⟨?_, rfl, ?_⟩
  · intro gs hne hgood
    have hp := cJSON_Parse_intarray_joinComma hne hgood
    exact ⟨hp, by simp [groupsItem, hp]⟩
  · intro lt row h1 h2 hok
    have hmem := groups_key_mem hok
    cases lt with
    | GRAVITY_GROUPS => exact absurd rfl h1
    | GRAVITY_ADLISTS => exact absurd rfl h2
    | GRAVITY_CLIENTS => simp [rowToJSON, jsonKeys]; simpa using hmem
    | GRAVITY_DOMAINLIST_ALLOW_EXACT => simp [rowToJSON, jsonKeys]; simpa using hmem
    | GRAVITY_DOMAINLIST_ALLOW_REGEX => simp [rowToJSON, jsonKeys]; simpa using hmem
    | GRAVITY_DOMAINLIST_ALLOW_ALL => simp [rowToJSON, jsonKeys]; simpa using hmem
    | GRAVITY_DOMAINLIST_DENY_EXACT => simp [rowToJSON, jsonKeys]; simpa using hmem
    | GRAVITY_DOMAINLIST_DENY_REGEX => simp [rowToJSON, jsonKeys]; simpa using hmem
    | GRAVITY_DOMAINLIST_DENY_ALL => simp [rowToJSON, jsonKeys]; simpa using hmem
    | GRAVITY_DOMAINLIST_ALL_EXACT => simp [rowToJSON, jsonKeys]; simpa using hmem
    | GRAVITY_DOMAINLIST_ALL_REGEX => simp [rowToJSON, jsonKeys]; simpa using hmem
    | GRAVITY_DOMAINLIST_ALL_ALL => simp [rowToJSON, jsonKeys]; simpa using hmem

/-- Witness for C4, at the aggregate `1,2,3` (which becomes `[1,2,3]`). -/
theorem C4_witness :
    ([['1'], ['2'], ['3']] : List (List Char)) ≠ []
    ∧ (∀ g ∈ ([['1'], ['2'], ['3']] : List (List Char)), GoodGroup g)
    ∧ cJSON_Parse_intarray ("[1,2,3]".toList) = some [1, 2, 3]
    ∧ groupsItem (some ("1,2,3".toList))
      = [("groups", JValue.arr [JValue.num 1, JValue.num 2, JValue.num 3])] := by
  have h := C4_groups_reconstruction.1 [['1'], ['2'], ['3']]
    (by decide) (by decide)
  refine ⟨by decide, by decide, ?_, ?_⟩
  · have h1 := h.1
    simpa using h1
  · have h2 := h.2
    simpa using h2

/-- Claim C10: the Clients variant is projected through the same row shape as
the domain-list variants — the Row Codec's `else` branch — with keys
`{id, domain, type, comment, groups, enabled, date_added, date_modified}`,
and its read result is nested under the key `domains`, not under a
clients-specific key. -/
theorem C10_clients_projection :
    (∀ row : Tablerow,
       rowToJSON GravityListType.GRAVITY_CLIENTS row
         = rowToJSON GravityListType.GRAVITY_DOMAINLIST_ALL_ALL row)
    ∧ tableObjName GravityListType.GRAVITY_CLIENTS = "domains"
    ∧ (∀ row : Tablerow, row.group_ids = none →
        jsonKeys (rowToJSON GravityListType.GRAVITY_CLIENTS row)
          = ["id", "domain", "type", "comment", "groups",
             "enabled", "date_added", "date_modified"]) := by
  refine ⟨fun row => rfl, rfl, fun row h => ?_⟩
  simp [rowToJSON, jsonKeys, groupsItem, h]

/-- Witness for C10, at the concrete row `row0`. -/
theorem C10_witness :
    row0.group_ids = none
    ∧ jsonKeys (rowToJSON GravityListType.GRAVITY_CLIENTS row0)
      = ["id", "domain", "type", "comment", "groups",
         "enabled", "date_added", "date_modified"] :=
  ⟨rfl, C10_clients_projection.2.2 row0 rfl⟩

theorem edit_groups_not_mem_read (code : Nat) (lt : GravityListType)
    (arg : Option (List Char)) (cur : ReadCursor) :
    StoreOp.edit_groups ∉ (api_list_read code lt arg cur).2 := by
  by_cases h : cur.openOk <;> cases hd : cur.drainMsg <;>
    simp [api_list_read, h, hd, List.mem_replicate]

/-- Claim C5: on every successful write — the row write succeeded and, when
a `groups` key was supplied, group replacement also succeeded — the Writer
does not echo the submitted payload: it re-invokes the Reader for the same
(variant, argument) and returns that read-back result, invoked with status
201 when the method was POST and 200 when it was PUT (so on a clean read the
response status is 201 resp. 200). -/
theorem C5_write_readback (method : HTTPMethod) (lt : GravityListType)
    (arg : Option (List Char)) (pj : JValue) (wo : WriteOracle)
    (cur : ReadCursor)
    (hb : cJSON_IsBool (getObjectItem (some pj) "enabled") = true)
    (hadd : wo.addOk = true)
    (hgroups : getObjectItem (some pj) "groups" ≠ none → wo.editOk = true) :
    (api_list_write method lt arg (some pj) wo cur).1
      = (api_list_read (if method = HTTPMethod.HTTP_PUT then 200 else 201)
          lt arg cur).1
    ∧ (method = HTTPMethod.HTTP_POST →
        (api_list_write method lt arg (some pj) wo cur).1
          = (api_list_read 201 lt arg cur).1)
    ∧ (method = HTTPMethod.HTTP_PUT →
        (api_list_write method lt arg (some pj) wo cur).1
          = (api_list_read 200 lt arg cur).1)
    ∧ (cur.openOk = true → cur.drainMsg = none →
        (api_list_write method lt arg (some pj) wo cur).1.status
          = if method = HTTPMethod.HTTP_PUT then 200 else 201) := by
  have hmain : (api_list_write method lt arg (some pj) wo cur).1
      = (api_list_read (if method = HTTPMethod.HTTP_PUT then 200 else 201)
          lt arg cur).1 := by
    cases hg : getObjectItem (some pj) "groups" with
    | none => simp [api_list_write, hb, hadd, hg]
    | some g =>
      have he : wo.editOk = true := hgroups (by simp [hg])
      simp [api_list_write, hb, hadd, hg, he]
  refine ⟨hmain, ?_, ?_, ?_⟩
  · intro hm
    subst hm
    simpa using hmain
  · intro hm
    subst hm
    simpa using hmain
  · intro hopen hdrain
    rw [hmain]
    simp [api_list_read, hopen, hdrain]

/-- Witness for C5: a PUT with payload `{enabled:true}` (no `groups` key)
against a clean store returns the Reader's result with status 200. -/
theorem C5_witness :
    cJSON_IsBool (getObjectItem
        (some (JValue.obj [("enabled", JValue.bool true)])) "enabled") = true
    ∧ (api_list_write HTTPMethod.HTTP_PUT
        GravityListType.GRAVITY_DOMAINLIST_ALLOW_EXACT (some ("x".toList))
        (some (JValue.obj [("enabled", JValue.bool true)])) db0.write
        db0.cursor).1
      = (api_list_read 200 GravityListType.GRAVITY_DOMAINLIST_ALLOW_EXACT
          (some ("x".toList)) db0.cursor).1 :=
  ⟨rfl,
   (C5_write_readback HTTPMethod.HTTP_PUT
      GravityListType.GRAVITY_DOMAINLIST_ALLOW_EXACT (some ("x".toList))
      (JValue.obj [("enabled", JValue.bool true)]) db0.write db0.cursor
      rfl rfl (fun _ => rfl)).2.2.1 rfl⟩

/-- Claim C6: group replacement (`gravityDB_edit_groups`) is invoked exactly
when the payload has a `groups` key and the row write succeeded, and then
only after the row write; a payload without a `groups` key is not an error —
the write succeeds and returns the read-back; if group replacement fails
after the row write succeeded, the Writer reports the 400 `database_error`,
and the trace is exactly the row write followed by the group replacement —
no compensating store operation rolls the row write back. -/
theorem C6_group_replace (method : HTTPMethod) (lt : GravityListType)
    (arg : Option (List Char)) (pj : JValue) (wo : WriteOracle)
    (cur : ReadCursor)
    (hb : cJSON_IsBool (getObjectItem (some pj) "enabled") = true) :
    (StoreOp.edit_groups ∈ (api_list_write method lt arg (some pj) wo cur).2
       ↔ wo.addOk = true ∧ getObjectItem (some pj) "groups" ≠ none)
    ∧ (wo.addOk = true → getObjectItem (some pj) "groups" ≠ none →
        ((api_list_write method lt arg (some pj) wo cur).2.take 2
          = [StoreOp.addToTable, StoreOp.edit_groups]))
    ∧ (wo.addOk = true → getObjectItem (some pj) "groups" = none →
        (api_list_write method lt arg (some pj) wo cur).1
          = (api_list_read (if method = HTTPMethod.HTTP_PUT then 200 else 201)
              lt arg cur).1)
    ∧ (wo.addOk = true → wo.editOk = false →
        getObjectItem (some pj) "groups" ≠ none →
        (api_list_write method lt arg (some pj) wo cur).1
          = send_json_error 400 "database_error"
              "Could not add to gravity database"
              (some (writeErrData (assembleRow arg pj) wo.editMsg))
        ∧ (api_list_write method lt arg (some pj) wo cur).2
          = [StoreOp.addToTable, StoreOp.edit_groups]) := by
  refine ⟨?_, ?_, ?_, ?_⟩
  · constructor
    · intro hmem
      by_cases ha : wo.addOk
      · cases hg : getObjectItem (some pj) "groups" with
        | none =>
          exfalso
          simp [api_list_write, hb, ha, hg] at hmem
          exact edit_groups_not_mem_read _ lt arg cur hmem
        | some g => exact ⟨ha, by simp [hg]⟩
      · exfalso
        simp [api_list_write, hb, ha] at hmem
    · rintro ⟨ha, hg⟩
      cases hgg : getObjectItem (some pj) "groups" with
      | none => exact absurd hgg hg
      | some g =>
        by_cases he : wo.editOk <;> simp [api_list_write, hb, ha, hgg, he]
  · intro ha hg
    cases hgg : getObjectItem (some pj) "groups" with
    | none => exact absurd hgg hg
    | some g =>
      by_cases he : wo.editOk <;> simp [api_list_write, hb, ha, hgg, he]
  · intro ha hg
    simp [api_list_write, hb, ha, hg]
  · intro ha he hg
    cases hgg : getObjectItem (some pj) "groups" with
    | none => exact absurd hgg hg
    | some g =>
      constructor <;> simp [api_list_write, hb, ha, hgg, he]

/-- Witness for C6: a payload `{enabled:true, groups:[1]}` with a failing
group replacement after a successful row write yields the database error and
the two-step, non-rolled-back trace. -/
theorem C6_witness :
    cJSON_IsBool (getObjectItem
        (some (JValue.obj [("enabled", JValue.bool true),
                           ("groups", JValue.arr [JValue.num 1])])) "enabled")
      = true
    ∧ (api_list_write HTTPMethod.HTTP_POST GravityListType.GRAVITY_GROUPS
        none
        (some (JValue.obj [("enabled", JValue.bool true),
                           ("groups", JValue.arr [JValue.num 1])]))
        { addOk := true, addMsg := none, editOk := false,
          editMsg := some "constraint failed" }
        db0.cursor).2
      = [StoreOp.addToTable, StoreOp.edit_groups] :=
  ⟨rfl,
   ((C6_group_replace HTTPMethod.HTTP_POST GravityListType.GRAVITY_GROUPS
      none
      (JValue.obj [("enabled", JValue.bool true),
                   ("groups", JValue.arr [JValue.num 1])])
      { addOk := true, addMsg := none, editOk := false,
        editMsg := some "constraint failed" }
      db0.cursor rfl).2.2.2 rfl rfl (by simp [getObjectItem,
        getObjectItem.lookupField])).2⟩

/-- Claim C7: when the collaborator reports an error only at end of
iteration (the cursor opened, and after the drain `sql_msg` is set), the
already-built result array is discarded in full: the Reader's response is
exactly the 400 `database_error` envelope whose data carries the argument
and the `sql_msg` — no partial result sequence appears in the body. -/
theorem C7_drain_error_discards (code : Nat) (lt : GravityListType)
    (arg : Option (List Char)) (cur : ReadCursor) (m : String)
    (hopen : cur.openOk = true) (hdrain : cur.drainMsg = some m) :
    (api_list_read code lt arg cur).1
      = send_json_error 400 "database_error"
          "Could not read from gravity database"
          (some (errData arg (some m)))
    ∧ (api_list_read code lt arg cur).1.status = 400 := by
  constructor <;> simp [api_list_read, hopen, hdrain, send_json_error]

/-- Witness for C7: a cursor that opens, yields a row, and then reports
`disk I/O error` at end of iteration. -/
theorem C7_witness :
    (api_list_read 200 GravityListType.GRAVITY_ADLISTS none
      { openOk := true, openMsg := none, rows := [row0],
        drainMsg := some "disk I/O error" }).1
      = send_json_error 400 "database_error"
          "Could not read from gravity database"
          (some (errData none (some "disk I/O error"))) :=
  (C7_drain_error_discards 200 GravityListType.GRAVITY_ADLISTS none
    { openOk := true, openMsg := none, rows := [row0],
      drainMsg := some "disk I/O error" }
    "disk I/O error" rfl rfl).1

/-- Claim C8 (counterexample): the claim says the read cursor is finalized
on every exit path of the Reader, including the cursor-open failure.  On the
code, when `gravityDB_readTable` fails the Reader returns the error at line
37 without ever reaching the `gravityDB_readTableFinalize()` call at line
103: the trace of a failed open contains no finalize operation. -/
theorem C8_counterexample :
    (api_list_read 200 GravityListType.GRAVITY_GROUPS none
      { openOk := false, openMsg := some "database is locked", rows := [],
        drainMsg := none }).2
      = [StoreOp.readTable]
    ∧ StoreOp.readTableFinalize ∉
        (api_list_read 200 GravityListType.GRAVITY_GROUPS none
          { openOk := false, openMsg := some "database is locked", rows := [],
            drainMsg := none }).2 :=
  ⟨rfl, by decide⟩

/-- Claim C8 (amended): on every exit path of the Reader on which the cursor
was opened — successful read and drain failure — the finalize operation is
invoked before the Reader returns; the cursor-open-failure path returns the
error without invoking finalize. -/
theorem C8_finalize (code : Nat) (lt : GravityListType)
    (arg : Option (List Char)) (cur : ReadCursor) (h : cur.openOk = true) :
    (api_list_read code lt arg cur).2
      = StoreOp.readTable ::
          (List.replicate (cur.rows.length + 1) StoreOp.readTableGetRow
            ++ [StoreOp.readTableFinalize])
    ∧ StoreOp.readTableFinalize ∈ (api_list_read code lt arg cur).2 := by
  cases hd : cur.drainMsg <;> constructor <;> simp [api_list_read, h, hd]

/-- Witness for C8 (amended), at the clean one-row cursor of `db0` and at a
drain-failure cursor. -/
theorem C8_witness :
    db0.cursor.openOk = true
    ∧ StoreOp.readTableFinalize ∈
        (api_list_read 200 GravityListType.GRAVITY_GROUPS none db0.cursor).2
    ∧ StoreOp.readTableFinalize ∈
        (api_list_read 200 GravityListType.GRAVITY_GROUPS none
          { openOk := true, openMsg := none, rows := [],
            drainMsg := some "disk I/O error" }).2 :=
  ⟨rfl,
   (C8_finalize 200 GravityListType.GRAVITY_GROUPS none db0.cursor rfl).2,
   (C8_finalize 200 GravityListType.GRAVITY_GROUPS none
     { openOk := true, openMsg := none, rows := [],
       drainMsg := some "disk I/O error" } rfl).2⟩

/-- Claim C9: when the delete-by-identity operation succeeds the Remover
returns 204 No Content with the empty reply object, and when it fails it
returns the 400 `database_error` carrying the argument and a nullable
`sql_msg`; deleting an argument that does not exist fails rather than
no-ops, so — with the store modelled from the spec — repeated deletes of the
same existing argument succeed once and then fail. -/
theorem C9_remove (arg : Option (List Char)) (msg : Option String) :
    api_list_remove arg true msg
      = ({ status := 204, body := JValue.obj [] }, [StoreOp.delFromTable])
    ∧ (api_list_remove arg false msg).1
      = send_json_error 400 "database_error"
          "Could not remove domain from database table"
          (some (errData arg msg))
    ∧ (∀ (store : List (List Char)) (a : List Char),
        store.Nodup → a ∈ store →
        gravityDB_delFromTable store a = (true, store.erase a)
        ∧ (api_list_remove (some a)
            (gravityDB_delFromTable store a).1 msg).1.status = 204
        ∧ gravityDB_delFromTable (store.erase a) a = (false, store.erase a)
        ∧ (api_list_remove (some a)
            (gravityDB_delFromTable (store.erase a) a).1 msg).1.status
          = 400) := by
  refine ⟨rfl, rfl, ?_⟩
  intro store a hnodup hmem
  have h1 : gravityDB_delFromTable store a = (true, store.erase a) := by
    simp [gravityDB_delFromTable, hmem]
  have hnot : a ∉ store.erase a := by
    intro hin
    exact absurd rfl ((List.Nodup.mem_erase_iff hnodup).1 hin).1
  have h2 : gravityDB_delFromTable (store.erase a) a = (false, store.erase a) := by
    simp [gravityDB_delFromTable, hnot]
  refine ⟨h1, ?_, h2, ?_⟩
  · rw [h1]
    rfl
  · rw [h2]
    rfl

/-- Witness for C9, deleting the single row `x` twice. -/
theorem C9_witness :
    ([("x".toList)] : List (List Char)).Nodup
    ∧ gravityDB_delFromTable [("x".toList)] ("x".toList) = (true, [])
    ∧ gravityDB_delFromTable [] ("x".toList) = (false, [])
    ∧ (api_list_remove (some ("x".toList))
        (gravityDB_delFromTable [("x".toList)] ("x".toList)).1 none).1.status
      = 204
    ∧ (api_list_remove (some ("x".toList))
        (gravityDB_delFromTable [] ("x".toList)).1 none).1.status = 400 := by
  have h := (C9_remove (some ("x".toList)) none).2.2 [("x".toList)]
    ("x".toList) (by decide) (by decide)
  exact ⟨by decide, by simpa using h.1, by simpa using h.2.2.1,
    by simpa using h.2.1, by simpa using h.2.2.2⟩

end FTL
